import Mathlib

/-!
Shallow embedding of the You-Yun-Bei frontend core (Vue/Nuxt game-save
manager): device-path reconciliation (`src/pages/Management/[name].vue`),
bulk path import and quick-action sound preferences (`src/pages/Settings.vue`),
the global loading stack and the notification queue
(`src/composables/useGlobalLoading.ts`), and the config store
(`useConfig`, the unnamed store module).

JavaScript string-keyed objects (`Record<string, string>`) are modelled as
association lists with `List.lookup`; `undefined` is `Option.none`; JS
truthiness of an optional string is spelled out per call site.
-/

namespace YouYunBei

/-- A JS `Record<string, string>` (deviceId → path), as an association list
with unique keys in practice; `List.lookup` reads a key. -/
abbrev PathMap := List (String × String)

/-- JS `String.prototype.trim`: strip leading and trailing whitespace. -/
def jsTrim (s : String) : String :=
  String.mk
    (((s.data.dropWhile Char.isWhitespace).reverse.dropWhile
        Char.isWhitespace).reverse)

/-- JS `s.trim()` is falsy / `=== ''` exactly when the string is empty or
whitespace-only. -/
def isBlank (s : String) : Bool := jsTrim s == ""

/-- `m?.[k]?.trim()` truthy: the entry exists and is non-blank after trim. -/
def nonBlank : Option String → Bool
  | some s => !(isBlank s)
  | none => false

/-- JS truthiness of an optional string entry (`m[k]` truthy): present and
not the empty string. -/
def truthy : Option String → Bool
  | some s => s != ""
  | none => false

/-- JS object assignment `m[k] = v`: replace the (unique) entry for `k` in
place, or append a fresh entry at the end. -/
def setPath : PathMap → String → String → PathMap
  | [], k, v => [(k, v)]
  | (a, b) :: rest, k, v =>
    if a == k then (k, v) :: rest else (a, b) :: setPath rest k v

/-- A `SaveUnit` from the generated bindings, as constructed by
`generate_save_unit` in `AddGame.vue`: a unit type tag, an optional
per-device path record, and an optional delete flag. -/
structure SaveUnit where
  unit_type : String
  paths : Option PathMap
  delete_before_apply : Option Bool
  deriving DecidableEq

/-- A `Game`: unique name, optional list of save units, optional per-device
launch-path record. -/
structure Game where
  name : String
  save_paths : Option (List SaveUnit)
  game_paths : Option PathMap
  deriving DecidableEq

/-- `unit.paths?.[d]`: the unit's path entry for device `d`. -/
def unitPath (u : SaveUnit) (d : String) : Option String :=
  match u.paths with
  | some m => m.lookup d
  | none => none

/-- `game.game_paths?.[d]`: the game's launch-path entry for device `d`. -/
def gamePath (g : Game) (d : String) : Option String :=
  match g.game_paths with
  | some m => m.lookup d
  | none => none

/-- The per-unit body of `copyPathsFromDevice` in `[name].vue`
(lines 499–507): if the source device's entry is present and non-blank and
the target device's entry is absent or blank, assign the source's raw value
to the target and report an update. -/
def copyUnit (src tgt : String) (u : SaveUnit) : SaveUnit × Bool :=
  match u.paths with
  | none => (u, false)
  | some m =>
    match m.lookup src with
    | none => (u, false)
    | some v =>
      if isBlank v then (u, false)
      else if nonBlank (m.lookup tgt) then (u, false)
      else ({ u with paths := some (setPath m tgt v) }, true)

/-- The `forEach` over `game.save_paths` in `copyPathsFromDevice`:
apply `copyUnit` to every unit and accumulate the `updated` flag. -/
def copySaveUnits (src tgt : String) (units : List SaveUnit) :
    List SaveUnit × Bool :=
  let rs := units.map (copyUnit src tgt)
  (rs.map Prod.fst, rs.any Prod.snd)

/-- `copyPathsFromDevice(sourceDeviceId)` from `[name].vue` (lines 491–516),
as a pure transform of the game with the `updated` flag: fill-gap copy over
every save unit, then the same rule for the launch-path record. -/
def copyPathsFromDevice (src tgt : String) (g : Game) : Game × Bool :=
  let sp : Option (List SaveUnit) × Bool :=
    match g.save_paths with
    | none => (none, false)
    | some units =>
      let r := copySaveUnits src tgt units
      (some r.1, r.2)
  let gp : Option PathMap × Bool :=
    match g.game_paths with
    | none => (none, false)
    | some m =>
      match m.lookup src with
      | none => (some m, false)
      | some v =>
        if isBlank v then (some m, false)
        else if nonBlank (m.lookup tgt) then (some m, false)
        else (some (setPath m tgt v), true)
  ({ g with save_paths := sp.1, game_paths := gp.1 }, sp.2 || gp.2)

/-- `!unit.paths || !unit.paths[deviceId] || unit.paths[deviceId].trim() === ''`
from `checkCurrentDeviceSavePaths` (line 410–412). -/
def savePathEmptyFor (deviceId : String) (u : SaveUnit) : Bool :=
  match u.paths with
  | none => true
  | some m =>
    match m.lookup deviceId with
    | none => true
    | some p => p == "" || isBlank p

/-- JS `Set.add` over an insertion-ordered set: append if not yet present. -/
def insertIfAbsent (acc : List String) (id : String) : List String :=
  if id ∈ acc then acc else acc ++ [id]

/-- The candidate-collection loop of `checkCurrentDeviceSavePaths`
(lines 417–426): scan every save unit's path record and collect the ids of
other devices holding a truthy, non-blank path. -/
def devicesWithPaths (deviceId : String) (units : List SaveUnit) :
    List String :=
  units.foldl
    (fun acc u =>
      match u.paths with
      | none => acc
      | some m =>
        m.foldl
          (fun acc2 e =>
            if e.1 != deviceId && e.2 != "" && !(isBlank e.2) then
              insertIfAbsent acc2 e.1
            else acc2)
          acc)
    []

/-- Abstract outcome of `checkCurrentDeviceSavePaths` before any user
interaction: either it returns with no action, or it reaches the copy
prompt with a candidate device list. -/
inductive CheckResult
  | noAction
  | promptCopy (candidates : List String)
  deriving DecidableEq

/-- The decision structure of `checkCurrentDeviceSavePaths` (lines 404–428):
bail out when `save_paths` is missing, when the current device already has a
non-blank path in some unit, or when no other device has a path; otherwise
reach the prompt with the collected candidates. -/
def checkCurrentDeviceSavePaths (deviceId : String) (g : Game) :
    CheckResult :=
  match g.save_paths with
  | none => .noAction
  | some units =>
    if !(units.all (savePathEmptyFor deviceId)) then .noAction
    else
      let cands := devicesWithPaths deviceId units
      if cands.isEmpty then .noAction
      else .promptCopy cands

/-- Outcome of the persistence tail of `copyPathsFromDevice`
(lines 519–533): the transformed game, the games list of the configuration
document, the `updated` flag, and whether `saveConfig` was invoked. -/
structure CopyOutcome where
  game : Game
  games : List Game
  updated : Bool
  savedConfig : Bool
  deriving DecidableEq

/-- `copyPathsFromDevice` including its persistence tail: when `updated`,
look the game up by name in `config.games` (`findIndex`), write it back and
call `saveConfig`; otherwise leave everything untouched. -/
def copyPathsFromDeviceFull (src tgt : String) (g : Game)
    (games : List Game) : CopyOutcome :=
  let r := copyPathsFromDevice src tgt g
  if r.2 then
    match games.findIdx? (fun x => x.name == r.1.name) with
    | some i =>
      { game := r.1, games := games.set i r.1, updated := true,
        savedConfig := true }
    | none =>
      { game := r.1, games := games, updated := true, savedConfig := false }
  else
    { game := r.1, games := games, updated := false, savedConfig := false }

/-- A save unit where device `A` holds `/a/save` and device `B` an empty
path, as in the spec's fill-gap example. -/
def unitW : SaveUnit :=
  { unit_type := "Folder", paths := some [("A", "/a/save"), ("B", "")],
    delete_before_apply := none }

/-- The spec's fill-gap example game. -/
def gameW : Game :=
  { name := "g", save_paths := some [unitW], game_paths := none }

/-- Candidate collection as the specification words it (refinement
comparison definition, following the spec sentence): scan all save units'
per-device path mappings AND the game's launch-path mapping, collecting
the other device ids with at least one non-empty path. -/
def devicesWithPathsSpec (deviceId : String) (g : Game) : List String :=
  let fromUnits := devicesWithPaths deviceId (g.save_paths.getD [])
  match g.game_paths with
  | none => fromUnits
  | some m =>
    m.foldl
      (fun acc e =>
        if e.1 != deviceId && e.2 != "" && !(isBlank e.2) then
          insertIfAbsent acc e.1
        else acc)
      fromUnits

/-- A save unit whose path record is present but empty. -/
def unitC2 : SaveUnit :=
  { unit_type := "Folder", paths := some [], delete_before_apply := none }

/-- A game whose only save unit has no per-device paths but whose
launch-path record has a non-blank entry for device `B`. -/
def gameC2 : Game :=
  { name := "g2", save_paths := some [unitC2],
    game_paths := some [("B", "/b/game")] }

/-- A unit giving device `B` a non-blank path, for the C2 witness. -/
def unitC2b : SaveUnit :=
  { unit_type := "File", paths := some [("B", "/b/save")],
    delete_before_apply := none }

/-- Game for the C2 witness: one unit, `B` has a path, `A` has none. -/
def gameC2b : Game :=
  { name := "g2b", save_paths := some [unitC2b], game_paths := none }

/-- An already-reconciled unit: the current device `A` holds the only
path. -/
def unitC7 : SaveUnit :=
  { unit_type := "Folder", paths := some [("A", "/a/save")],
    delete_before_apply := none }

/-- Game for the C7 witness: `A` is current; no other device has a path. -/
def gameC7 : Game :=
  { name := "g7", save_paths := some [unitC7], game_paths := none }

/-- The per-unit body of `importFromDevice` in `Settings.vue`
(lines 234–241): if the source device's entry is truthy (present and not
the empty string), assign it to the current device's entry unconditionally,
overwriting whatever was there. -/
def importUnit (src tgt : String) (u : SaveUnit) : SaveUnit :=
  match u.paths with
  | none => u
  | some m =>
    match m.lookup src with
    | none => u
    | some v =>
      if v == "" then u else { u with paths := some (setPath m tgt v) }

/-- The per-game body of `importFromDevice` (lines 233–247): copy every
truthy source save-unit path and the truthy source launch path onto the
current device's entries. -/
def importGame (src tgt : String) (g : Game) : Game :=
  let sp : Option (List SaveUnit) :=
    match g.save_paths with
    | none => none
    | some units => some (units.map (importUnit src tgt))
  let gp : Option PathMap :=
    match g.game_paths with
    | none => none
    | some m =>
      match m.lookup src with
      | none => some m
      | some v => if v == "" then some m else some (setPath m tgt v)
  { g with save_paths := sp, game_paths := gp }

/-- `importFromDevice(deviceId)` from `Settings.vue` (lines 210–261): the
loop over `config.games`, as a pure transform of the games list. -/
def importFromDevice (src tgt : String) (games : List Game) : List Game :=
  games.map (importGame src tgt)

/-- A unit where both the source device `A` and the current device `B`
already hold non-blank paths. -/
def unitC10 : SaveUnit :=
  { unit_type := "Folder", paths := some [("A", "/a/save"), ("B", "/b/save")],
    delete_before_apply := none }

/-- A one-unit game for the C10 witness. -/
def gameC10 : Game :=
  { name := "g", save_paths := some [unitC10], game_paths := none }

/-- A `QuickActionSoundSource` from the bindings: the tagged variant
`{kind: "default"} | {kind: "file", path}`; the `path` field of a file
source may be absent (the code guards with `current.path ?? ""`). -/
inductive SoundSource
  | dflt
  | file (path : Option String)
  deriving DecidableEq

/-- `QuickActionSoundSlots`: per-effect slots; the code treats each slot as
possibly undefined (`cloneSoundSource(slots.success)` accepts
`undefined`). -/
structure SoundSlots where
  success : Option SoundSource
  failure : Option SoundSource
  deriving DecidableEq

/-- The fields of `QuickActionsSettings` (the `quick_action` config
substructure) touched by `ensureQuickActionDefaults`. -/
structure QuickActionsSettings where
  enable_sound : Option Bool
  enable_notification : Option Bool
  sounds : Option SoundSlots
  deriving DecidableEq

/-- `ensureQuickActionDefaults` from `Settings.vue` (lines 263–280), on a
present `quick_action`: a missing `enable_sound` / `enable_notification`
becomes `true`; a missing `sounds` becomes the default success/failure
pair; a present `sounds` object is left untouched. -/
def ensureQuickActionDefaults (qa : QuickActionsSettings) :
    QuickActionsSettings :=
  let qa1 :=
    if qa.enable_sound = none then { qa with enable_sound := some true }
    else qa
  let qa2 :=
    if qa1.enable_notification = none then
      { qa1 with enable_notification := some true }
    else qa1
  if qa2.sounds = none then
    { qa2 with
      sounds := some { success := some .dflt, failure := some .dflt } }
  else qa2

/-- The `if (!config.value?.quick_action) return` guard: on an absent
`quick_action` the normalizer does nothing. -/
def ensureQuickActionDefaultsOpt (qa : Option QuickActionsSettings) :
    Option QuickActionsSettings :=
  match qa with
  | none => none
  | some s => some (ensureQuickActionDefaults s)

/-- A `quick_action` whose `sounds` field is present but empty (both slots
undefined). -/
def qaPartialSounds : QuickActionsSettings :=
  { enable_sound := none, enable_notification := none,
    sounds := some { success := none, failure := none } }

/-- `SoundModeOption = "default" | "file"` from `Settings.vue`. -/
inductive SoundMode
  | dflt
  | file
  deriving DecidableEq

/-- `isFileSource` from `Settings.vue` (lines 287–289):
`source?.kind === "file"`. -/
def isFileSource : Option SoundSource → Bool
  | some (.file _) => true
  | _ => false

/-- `ensureSoundSlots` (lines 282–285): run `ensureQuickActionDefaults`
on the config, then return the (possibly absent) `sounds` object; the
first component is the configuration after normalization. -/
def ensureSoundSlots (qa : Option QuickActionsSettings) :
    Option QuickActionsSettings × Option SoundSlots :=
  match qa with
  | none => (none, none)
  | some s =>
    let s2 := ensureQuickActionDefaults s
    (some s2, s2.sounds)

/-- The `successSoundMode` setter (lines 315–328) as a config transform:
`default` replaces the slot with `{kind: "default"}`; `file` keeps a prior
file path (`current.path ?? ""`) and otherwise starts blank. -/
def setSuccessSoundMode (mode : SoundMode)
    (qa : Option QuickActionsSettings) : Option QuickActionsSettings :=
  match ensureSoundSlots qa with
  | (qa2, none) => qa2
  | (qa2, some slots) =>
    match qa2 with
    | none => none
    | some s =>
      match mode with
      | .dflt =>
        some { s with sounds := some { slots with success := some .dflt } }
      | .file =>
        let existingPath :=
          match slots.success with
          | some (.file p) => p.getD ""
          | _ => ""
        some { s with
          sounds := some { slots with
            success := some (.file (some existingPath)) } }

/-- The `failureSoundMode` setter (lines 330–343). -/
def setFailureSoundMode (mode : SoundMode)
    (qa : Option QuickActionsSettings) : Option QuickActionsSettings :=
  match ensureSoundSlots qa with
  | (qa2, none) => qa2
  | (qa2, some slots) =>
    match qa2 with
    | none => none
    | some s =>
      match mode with
      | .dflt =>
        some { s with sounds := some { slots with failure := some .dflt } }
      | .file =>
        let existingPath :=
          match slots.failure with
          | some (.file p) => p.getD ""
          | _ => ""
        some { s with
          sounds := some { slots with
            failure := some (.file (some existingPath)) } }

/-- The `successSoundPath` setter (lines 345–355): store
`{kind: "file", path: value}` in the success slot. -/
def setSuccessSoundPath (value : String)
    (qa : Option QuickActionsSettings) : Option QuickActionsSettings :=
  match ensureSoundSlots qa with
  | (qa2, none) => qa2
  | (qa2, some slots) =>
    match qa2 with
    | none => none
    | some s =>
      some { s with
        sounds := some { slots with success := some (.file (some value)) } }

/-- A fully-populated default `quick_action` used in the C8 sequence. -/
def qaDefault : QuickActionsSettings :=
  { enable_sound := some true, enable_notification := some true,
    sounds := some { success := some .dflt, failure := some .dflt } }

/-- The configuration document as far as the store-level claims observe
it. The contents of `DEFAULT_CONFIG` live in the generated bindings (not
in this source set), so the store theorems quantify over an arbitrary
default document. -/
structure ConfigDoc where
  games : List Game
  quick_action : Option QuickActionsSettings
  deriving DecidableEq

/-- A backend command outcome: the discriminated result
`{status:"ok",data} | {status:"error",error}`, plus a thrown/rejected
transport exception. -/
inductive BackendResult (α : Type)
  | ok (data : α)
  | err (e : String)
  | exn (e : String)
  deriving DecidableEq

/-- The `useConfig` store state: the reactive `config` and the loading
flag. -/
structure ConfigStore where
  config : ConfigDoc
  isLoading : Bool
  deriving DecidableEq

/-- `refreshConfig` from the config store module (`useConfig`): set the
loading flag, request the configuration; on `ok` install the returned
data; on an error result (re-thrown as an exception) or a transport
exception, log, show the translated notification
`error.config_load_failed`, and fall back to the default document; the
`finally` clause clears the loading flag on every exit path. The second
component lists the notification message keys emitted. -/
def refreshConfig (defaultConfig : ConfigDoc) (st : ConfigStore)
    (r : BackendResult ConfigDoc) : ConfigStore × List String :=
  let st1 := { st with isLoading := true }
  match r with
  | .ok d => ({ st1 with config := d, isLoading := false }, [])
  | .err _ =>
    ({ st1 with config := defaultConfig, isLoading := false },
      ["error.config_load_failed"])
  | .exn _ =>
    ({ st1 with config := defaultConfig, isLoading := false },
      ["error.config_load_failed"])

/-- A concrete default document for the C5 witness. -/
def dcW : ConfigDoc := { games := [], quick_action := none }

/-- A concrete non-default store state for the C5 witness. -/
def stW : ConfigStore :=
  { config := { games := [gameC10], quick_action := some qaDefault },
    isLoading := true }

/-- The four notification types of `useNotification`. -/
inductive NotificationType
  | success
  | warning
  | error
  | info
  deriving DecidableEq

/-- `NotificationOptions` from `useGlobalLoading.ts` (lines 55–72):
optional title, optional duration, message, optional persistent flag. -/
structure NotificationOptions where
  title : Option String
  duration : Option Int
  message : String
  persistent : Option Bool
  deriving DecidableEq

/-- `defaultDurations` (lines 122–127): every type defaults to 3000 ms. -/
def defaultDurations : NotificationType → Int
  | .success => 3000
  | .warning => 3000
  | .error => 3000
  | .info => 3000

/-- `defaultTitles` (lines 132–137); `$t` is modelled by its i18n key. -/
def defaultTitles : NotificationType → String
  | .success => "misc.success"
  | .warning => "misc.warning"
  | .error => "misc.error"
  | .info => "misc.info"

/-- The arguments `show` passes to `ElNotification` (`typ` is the `type`
field, a reserved word in Lean). -/
structure RenderedNotification where
  title : String
  message : String
  typ : NotificationType
  duration : Int
  deriving DecidableEq

/-- The `show` function (lines 151–163): the destructuring defaults
`title = defaultTitles[type]` and
`duration = options.persistent ? 0 : defaultDurations[type]` apply exactly
when the corresponding option is `undefined`. -/
def showNotification (t : NotificationType) (o : NotificationOptions) :
    RenderedNotification :=
  { title := o.title.getD (defaultTitles t),
    message := o.message,
    typ := t,
    duration :=
      o.duration.getD (if o.persistent.getD false then 0
        else defaultDurations t) }

/-- A `QueuedNotification` (lines 77–90): type, options, generated id. -/
structure QueuedNotification where
  typ : NotificationType
  options : NotificationOptions
  id : String
  deriving DecidableEq

/-- The inter-notification delay of `processQueue` (line 177):
`setTimeout(resolve, 100)`. -/
def interNotificationDelayMs : Nat := 100

/-- Observable state of the notification queue module: the pending
`messageQueue`, the module-level `isProcessing` flag, plus the model's
history observations — the rendered notifications in render order, the
delay waited after each render, and every notification ever enqueued in
call order. -/
structure QueueState where
  messageQueue : List QueuedNotification
  isProcessing : Bool
  rendered : List QueuedNotification
  waits : List Nat
  enqueued : List QueuedNotification
  deriving DecidableEq

/-- The initial module state: empty queue, no worker. -/
def initQueueState : QueueState :=
  { messageQueue := [], isProcessing := false, rendered := [], waits := [],
    enqueued := [] }

/-- One event-loop step of the notification system, each mirroring a
synchronous segment of the source: `enqueue` is `addToQueue` pushing to
the queue (lines 190–195); `beginWork` is `processQueue` passing its guard
— it returns immediately when `isProcessing` is already set or the queue
is empty, so a second worker can never start (lines 169–171); `renderStep`
is one drain-loop iteration: `shift`, `show`, then the fixed 100 ms
`setTimeout` (lines 173–179); `endWork` is loop exit clearing
`isProcessing` (line 181). -/
inductive QueueStep : QueueState → QueueState → Prop
  | enqueue (s : QueueState) (q : QueuedNotification) :
    QueueStep s
      { s with messageQueue := s.messageQueue ++ [q],
               enqueued := s.enqueued ++ [q] }
  | beginWork (s : QueueState) :
    s.isProcessing = false → s.messageQueue ≠ [] →
    QueueStep s { s with isProcessing := true }
  | renderStep (s : QueueState) (q : QueuedNotification)
      (rest : List QueuedNotification) :
    s.isProcessing = true → s.messageQueue = q :: rest →
    QueueStep s
      { s with messageQueue := rest, rendered := s.rendered ++ [q],
               waits := s.waits ++ [interNotificationDelayMs] }
  | endWork (s : QueueState) :
    s.isProcessing = true → s.messageQueue = [] →
    QueueStep s { s with isProcessing := false }

/-- States reachable from the initial module state. -/
def QueueReachable (s : QueueState) : Prop :=
  Relation.ReflTransGen QueueStep initQueueState s

/-- A concrete queued notification for the C6 witness. -/
def qnW : QueuedNotification :=
  { typ := .success,
    options := { title := none, duration := none, message := "done",
                 persistent := none },
    id := "id1" }

/-- A second queued notification, of a different type. -/
def qnW2 : QueuedNotification :=
  { typ := .error,
    options := { title := none, duration := none, message := "oops",
                 persistent := none },
    id := "id2" }

/-- The state after: enqueue `qnW`, worker starts, renders it, `qnW2` is
enqueued, rendered, worker stops. -/
def queueStateW : QueueState :=
  { messageQueue := [], isProcessing := false, rendered := [qnW, qnW2],
    waits := [100, 100], enqueued := [qnW, qnW2] }

/-- The default loading message key (`$t` modelled by its i18n key). -/
def defaultLoadingMessage : String := "common.operation_in_progress"

/-- `startLoading(message?)` from `useGlobalLoading.ts` (lines 6–8): push
the message (or the default key) onto the stack; the head of the list is
the top of the stack. -/
def startLoading (msg : Option String) (stack : List String) :
    List String :=
  (msg.getD defaultLoadingMessage) :: stack

/-- `stopLoading()` (lines 10–14): pop the top when the stack is
non-empty. -/
def stopLoading (stack : List String) : List String :=
  match stack with
  | [] => []
  | _ :: rest => rest

/-- `isLoading` (line 25): `messageStack.value.length > 0`. -/
def isLoading (stack : List String) : Bool := decide (stack.length > 0)

/-- One event of an interleaving of `withLoading(op)` calls, identified by
call id: `start` is a call entering `withLoading` — the push happens
before `operation` is invoked (line 17); `settle` is that call's operation
settling, fulfilled or rejected, whereupon the `finally` clause performs
exactly one pop (lines 20–22). -/
inductive LoadEvent
  | start (id : Nat) (msg : Option String)
  | settle (id : Nat)
  deriving DecidableEq

/-- The call id of a start event. -/
def evStart? : LoadEvent → Option Nat
  | .start i _ => some i
  | .settle _ => none

/-- The call id of a settle event. -/
def evSettle? : LoadEvent → Option Nat
  | .start _ _ => none
  | .settle i => some i

/-- Ids of the calls that have started in a trace, in order. -/
def startedIds (tr : List LoadEvent) : List Nat := tr.filterMap evStart?

/-- Ids of the calls that have settled in a trace, in order. -/
def settledIds (tr : List LoadEvent) : List Nat := tr.filterMap evSettle?

/-- Execute a trace of `withLoading` events against the message stack. -/
def runLoading : List String → List LoadEvent → List String
  | stack, [] => stack
  | stack, .start _ m :: t => runLoading (startLoading m stack) t
  | stack, .settle _ :: t => runLoading (stopLoading stack) t

/-- A well-formed `withLoading` interleaving: every call starts at most
once and settles at most once, and in every prefix a call settles only if
it already started there. -/
def WFTrace (tr : List LoadEvent) : Prop :=
  (startedIds tr).Nodup ∧ (settledIds tr).Nodup ∧
  ∀ n, settledIds (tr.take n) ⊆ startedIds (tr.take n)

/-- The witness interleaving: call 0 starts, call 1 starts (overlapping),
call 0's operation settles, then call 1's settles. -/
def trW : List LoadEvent :=
  [.start 0 none, .start 1 (some "settings.backup_all_in_progress"),
    .settle 0, .settle 1]

theorem lookup_cons_self (k b : String) (tl : PathMap) :
    List.lookup k ((k, b) :: tl) = some b := by
  simp only [List.lookup]
  rw [show (k == k) = true by simp]

theorem lookup_cons_ne (a k b : String) (tl : PathMap) (h : ¬k = a) :
    List.lookup k ((a, b) :: tl) = List.lookup k tl := by
  simp only [List.lookup]
  rw [show (k == a) = false by simpa using h]

theorem lookup_setPath_self (m : PathMap) (k v : String) :
    (setPath m k v).lookup k = some v := by
  induction m with
  | nil => exact lookup_cons_self k v []
  | cons hd tl ih =>
    obtain ⟨a, b⟩ := hd
    by_cases hak : a = k
    · subst hak
      simp only [setPath, beq_self_eq_true, if_pos]
      exact lookup_cons_self _ v tl
    · simp only [setPath]
      rw [if_neg (by simpa using hak)]
      rw [lookup_cons_ne a k b _ (fun h => hak h.symm)]
      exact ih

theorem lookup_setPath_ne (m : PathMap) (k v k' : String) (h : k' ≠ k) :
    (setPath m k v).lookup k' = m.lookup k' := by
  induction m with
  | nil =>
    simp only [setPath]
    rw [lookup_cons_ne k k' v [] h]
  | cons hd tl ih =>
    obtain ⟨a, b⟩ := hd
    by_cases hak : a = k
    · subst hak
      simp only [setPath, beq_self_eq_true, if_pos]
      rw [lookup_cons_ne _ _ _ _ h, lookup_cons_ne _ _ _ _ h]
    · simp only [setPath]
      rw [if_neg (by simpa using hak)]
      by_cases hka' : k' = a
      · subst hka'
        rw [lookup_cons_self, lookup_cons_self]
      · rw [lookup_cons_ne _ _ _ _ hka', lookup_cons_ne _ _ _ _ hka']
        exact ih

/-- `copyUnit` equation: a unit without a path record is untouched. -/
theorem copyUnit_none (src tgt ut : String) (del : Option Bool) :
    copyUnit src tgt ⟨ut, none, del⟩ = (⟨ut, none, del⟩, false) := rfl

/-- `copyUnit` equation: no source entry, no copy. -/
theorem copyUnit_src_absent (src tgt ut : String) (del : Option Bool)
    (m : PathMap) (hsrc : m.lookup src = none) :
    copyUnit src tgt ⟨ut, some m, del⟩ = (⟨ut, some m, del⟩, false) := by
  simp [copyUnit, hsrc]

/-- `copyUnit` equation: blank source entry, no copy. -/
theorem copyUnit_src_blank (src tgt ut : String) (del : Option Bool)
    (m : PathMap) (v : String) (hsrc : m.lookup src = some v)
    (hbv : isBlank v = true) :
    copyUnit src tgt ⟨ut, some m, del⟩ = (⟨ut, some m, del⟩, false) := by
  simp [copyUnit, hsrc, hbv]

/-- `copyUnit` equation: non-blank target entry, no copy. -/
theorem copyUnit_tgt_nonblank (src tgt ut : String) (del : Option Bool)
    (m : PathMap) (v : String) (hsrc : m.lookup src = some v)
    (hbv : isBlank v = false) (htgt : nonBlank (m.lookup tgt) = true) :
    copyUnit src tgt ⟨ut, some m, del⟩ = (⟨ut, some m, del⟩, false) := by
  simp [copyUnit, hsrc, hbv, htgt]

/-- `copyUnit` equation: non-blank source, blank-or-absent target, copy. -/
theorem copyUnit_copies (src tgt ut : String) (del : Option Bool)
    (m : PathMap) (v : String) (hsrc : m.lookup src = some v)
    (hbv : isBlank v = false) (htgt : nonBlank (m.lookup tgt) = false) :
    copyUnit src tgt ⟨ut, some m, del⟩ =
      (⟨ut, some (setPath m tgt v), del⟩, true) := by
  simp [copyUnit, hsrc, hbv, htgt]

/-- Per-unit fill-gap behaviour of `copyUnit`: the source entry is never
touched; the target entry becomes the source value exactly when the source
is non-blank and the target is blank or absent; otherwise the unit and the
update flag are untouched. -/
theorem copyUnit_spec (src tgt : String) (u : SaveUnit) :
    unitPath (copyUnit src tgt u).1 src = unitPath u src ∧
    (nonBlank (unitPath u src) = true → nonBlank (unitPath u tgt) = false →
      unitPath (copyUnit src tgt u).1 tgt = unitPath u src ∧
      (copyUnit src tgt u).2 = true) ∧
    (¬(nonBlank (unitPath u src) = true ∧ nonBlank (unitPath u tgt) = false) →
      (copyUnit src tgt u).1 = u ∧ (copyUnit src tgt u).2 = false) := by
  rcases u with ⟨ut, mp, del⟩
  cases mp with
  | none =>
    refine ⟨rfl, ?_, fun _ => ⟨rfl, rfl⟩⟩
    intro hsrc _
    simp [unitPath, nonBlank] at hsrc
  | some m =>
    have hup : unitPath ⟨ut, some m, del⟩ src = m.lookup src := rfl
    have hut : unitPath ⟨ut, some m, del⟩ tgt = m.lookup tgt := rfl
    cases hsrc : m.lookup src with
    | none =>
      rw [copyUnit_src_absent src tgt ut del m hsrc]
      refine ⟨rfl, ?_, fun _ => ⟨rfl, rfl⟩⟩
      intro hs _
      rw [hup, hsrc] at hs
      simp [nonBlank] at hs
    | some v =>
      by_cases hbv : isBlank v
      · rw [copyUnit_src_blank src tgt ut del m v hsrc hbv]
        refine ⟨rfl, ?_, fun _ => ⟨rfl, rfl⟩⟩
        intro hs _
        rw [hup, hsrc] at hs
        simp [nonBlank, hbv] at hs
      · replace hbv : isBlank v = false := by simpa using hbv
        by_cases htgt : nonBlank (m.lookup tgt)
        · rw [copyUnit_tgt_nonblank src tgt ut del m v hsrc hbv htgt]
          refine ⟨rfl, ?_, fun _ => ⟨rfl, rfl⟩⟩
          intro _ ht
          rw [hut, htgt] at ht
          cases ht
        · replace htgt : nonBlank (m.lookup tgt) = false := by simpa using htgt
          rw [copyUnit_copies src tgt ut del m v hsrc hbv htgt]
          refine ⟨?_, fun _ _ => ⟨?_, rfl⟩, ?_⟩
          · rw [hup]
            show (setPath m tgt v).lookup src = m.lookup src
            by_cases hst : src = tgt
            · subst hst
              rw [lookup_setPath_self, hsrc]
            · rw [lookup_setPath_ne _ _ _ _ hst]
          · rw [hup, hsrc]
            show (setPath m tgt v).lookup tgt = some v
            exact lookup_setPath_self m tgt v
          · intro hcon
            exfalso
            apply hcon
            refine ⟨?_, by rw [hut]; exact htgt⟩
            rw [hup, hsrc]
            simp [nonBlank, hbv]

/-- When `copyUnit` reports no update it returns the unit unchanged. -/
theorem copyUnit_snd_false (src tgt : String) (u : SaveUnit)
    (h : (copyUnit src tgt u).2 = false) : (copyUnit src tgt u).1 = u := by
  rcases u with ⟨ut, mp, del⟩
  cases mp with
  | none => rfl
  | some m =>
    cases hsrc : m.lookup src with
    | none => rw [copyUnit_src_absent src tgt ut del m hsrc]
    | some v =>
      by_cases hbv : isBlank v
      · rw [copyUnit_src_blank src tgt ut del m v hsrc hbv]
      · replace hbv : isBlank v = false := by simpa using hbv
        by_cases htgt : nonBlank (m.lookup tgt)
        · rw [copyUnit_tgt_nonblank src tgt ut del m v hsrc hbv htgt]
        · replace htgt : nonBlank (m.lookup tgt) = false := by simpa using htgt
          rw [copyUnit_copies src tgt ut del m v hsrc hbv htgt] at h
          cases h

/-- When `copyUnit` reports an update, the target entry actually changed:
it was blank or absent and becomes a non-blank value. -/
theorem copyUnit_snd_true (src tgt : String) (u : SaveUnit)
    (h : (copyUnit src tgt u).2 = true) :
    unitPath (copyUnit src tgt u).1 tgt ≠ unitPath u tgt := by
  rcases u with ⟨ut, mp, del⟩
  cases mp with
  | none => cases h
  | some m =>
    cases hsrc : m.lookup src with
    | none =>
      rw [copyUnit_src_absent src tgt ut del m hsrc] at h
      cases h
    | some v =>
      by_cases hbv : isBlank v
      · rw [copyUnit_src_blank src tgt ut del m v hsrc hbv] at h
        cases h
      · replace hbv : isBlank v = false := by simpa using hbv
        by_cases htgt : nonBlank (m.lookup tgt)
        · rw [copyUnit_tgt_nonblank src tgt ut del m v hsrc hbv htgt] at h
          cases h
        · replace htgt : nonBlank (m.lookup tgt) = false := by simpa using htgt
          rw [copyUnit_copies src tgt ut del m v hsrc hbv htgt]
          show (some (setPath m tgt v)).elim none (fun mm => mm.lookup tgt) ≠ _
          intro heq
          have hnew : unitPath ⟨ut, some (setPath m tgt v), del⟩ tgt = some v := by
            show (setPath m tgt v).lookup tgt = some v
            exact lookup_setPath_self m tgt v
          rw [show unitPath ⟨ut, some (setPath m tgt v), del⟩ tgt =
              (setPath m tgt v).lookup tgt from rfl] at hnew
          have : (setPath m tgt v).lookup tgt = m.lookup tgt := heq
          rw [lookup_setPath_self] at this
          rw [← this] at htgt
          simp [nonBlank, hbv] at htgt

theorem gamePath_none_eq {g : Game} (d : String) (h : g.game_paths = none) :
    gamePath g d = none := by
  simp [gamePath, h]

theorem gamePath_some_eq {g : Game} {m : PathMap} (d : String)
    (h : g.game_paths = some m) : gamePath g d = m.lookup d := by
  simp [gamePath, h]

theorem copyPaths_sp_none {g : Game} (src tgt : String)
    (h : g.save_paths = none) :
    (copyPathsFromDevice src tgt g).1.save_paths = none := by
  simp [copyPathsFromDevice, h]

theorem copyPaths_sp_some {g : Game} {units : List SaveUnit}
    (src tgt : String) (h : g.save_paths = some units) :
    (copyPathsFromDevice src tgt g).1.save_paths =
      some (units.map (fun u => (copyUnit src tgt u).1)) := by
  simp [copyPathsFromDevice, copySaveUnits, h, List.map_map]

theorem copyPaths_gp_none {g : Game} (src tgt : String)
    (h : g.game_paths = none) :
    (copyPathsFromDevice src tgt g).1.game_paths = none := by
  simp [copyPathsFromDevice, h]

theorem copyPaths_gp_src_absent {g : Game} {m : PathMap} (src tgt : String)
    (h : g.game_paths = some m) (hsrc : m.lookup src = none) :
    (copyPathsFromDevice src tgt g).1.game_paths = some m := by
  simp [copyPathsFromDevice, h, hsrc]

theorem copyPaths_gp_src_blank {g : Game} {m : PathMap} {v : String}
    (src tgt : String) (h : g.game_paths = some m)
    (hsrc : m.lookup src = some v) (hbv : isBlank v = true) :
    (copyPathsFromDevice src tgt g).1.game_paths = some m := by
  simp [copyPathsFromDevice, h, hsrc, hbv]

theorem copyPaths_gp_tgt_nonblank {g : Game} {m : PathMap} {v : String}
    (src tgt : String) (h : g.game_paths = some m)
    (hsrc : m.lookup src = some v) (hbv : isBlank v = false)
    (htgt : nonBlank (m.lookup tgt) = true) :
    (copyPathsFromDevice src tgt g).1.game_paths = some m := by
  simp [copyPathsFromDevice, h, hsrc, hbv, htgt]

theorem copyPaths_gp_copies {g : Game} {m : PathMap} {v : String}
    (src tgt : String) (h : g.game_paths = some m)
    (hsrc : m.lookup src = some v) (hbv : isBlank v = false)
    (htgt : nonBlank (m.lookup tgt) = false) :
    (copyPathsFromDevice src tgt g).1.game_paths =
      some (setPath m tgt v) := by
  simp [copyPathsFromDevice, h, hsrc, hbv, htgt]

/-- C1. Fill-gap copy invariant of device-path reconciliation: for every
game, source device `src` and current device `tgt`, `copyPathsFromDevice`
sets `tgt`'s entry in a save unit's path record (and in the launch-path
record) to `src`'s value exactly when `src`'s entry is non-empty after
trimming and `tgt`'s entry is empty or absent; an existing non-blank `tgt`
entry is never overwritten (the unit is then untouched), and `src`'s
entries are unchanged. -/
theorem copyPathsFromDevice_fill_gap (src tgt : String) (g : Game) :
    (g.save_paths = none →
      (copyPathsFromDevice src tgt g).1.save_paths = none) ∧
    (∀ units, g.save_paths = some units →
      ∃ units', (copyPathsFromDevice src tgt g).1.save_paths = some units' ∧
        units'.length = units.length ∧
        ∀ (i : Nat) (u : SaveUnit), units[i]? = some u →
          ∃ u', units'[i]? = some u' ∧
            unitPath u' src = unitPath u src ∧
            (nonBlank (unitPath u src) = true →
              nonBlank (unitPath u tgt) = false →
              unitPath u' tgt = unitPath u src) ∧
            (¬(nonBlank (unitPath u src) = true ∧
                nonBlank (unitPath u tgt) = false) →
              u' = u)) ∧
    gamePath (copyPathsFromDevice src tgt g).1 src = gamePath g src ∧
    (nonBlank (gamePath g src) = true → nonBlank (gamePath g tgt) = false →
      gamePath (copyPathsFromDevice src tgt g).1 tgt = gamePath g src) ∧
    (¬(nonBlank (gamePath g src) = true ∧
        nonBlank (gamePath g tgt) = false) →
      gamePath (copyPathsFromDevice src tgt g).1 tgt = gamePath g tgt) := by
  refine ⟨fun h => copyPaths_sp_none src tgt h, ?_, ?_⟩
  · intro units hsp
    refine ⟨units.map (fun u => (copyUnit src tgt u).1),
      copyPaths_sp_some src tgt hsp, by simp, ?_⟩
    intro i u hu
    refine ⟨(copyUnit src tgt u).1, by simp [List.getElem?_map, hu], ?_, ?_, ?_⟩
    · exact (copyUnit_spec src tgt u).1
    · intro h1 h2
      exact ((copyUnit_spec src tgt u).2.1 h1 h2).1
    · intro h
      exact ((copyUnit_spec src tgt u).2.2 h).1
  · cases hgp : g.game_paths with
    | none =>
      have hgp' := copyPaths_gp_none src tgt hgp
      rw [gamePath_none_eq src hgp', gamePath_none_eq src hgp,
        gamePath_none_eq tgt hgp', gamePath_none_eq tgt hgp]
      exact ⟨rfl, fun h1 _ => absurd h1 (by decide), fun _ => rfl⟩
    | some m =>
      cases hsrc : m.lookup src with
      | none =>
        have hgp' := copyPaths_gp_src_absent src tgt hgp hsrc
        rw [gamePath_some_eq src hgp', gamePath_some_eq tgt hgp',
          gamePath_some_eq src hgp, gamePath_some_eq tgt hgp]
        refine ⟨rfl, ?_, fun _ => rfl⟩
        intro h1 _
        rw [hsrc] at h1
        exact absurd h1 (by decide)
      | some v =>
        by_cases hbv : isBlank v
        · have hgp' := copyPaths_gp_src_blank src tgt hgp hsrc hbv
          rw [gamePath_some_eq src hgp', gamePath_some_eq tgt hgp',
            gamePath_some_eq src hgp, gamePath_some_eq tgt hgp]
          refine ⟨rfl, ?_, fun _ => rfl⟩
          intro h1 _
          rw [hsrc] at h1
          simp [nonBlank, hbv] at h1
        · replace hbv : isBlank v = false := by simpa using hbv
          by_cases htgt : nonBlank (m.lookup tgt)
          · have hgp' := copyPaths_gp_tgt_nonblank src tgt hgp hsrc hbv htgt
            rw [gamePath_some_eq src hgp', gamePath_some_eq tgt hgp',
              gamePath_some_eq src hgp, gamePath_some_eq tgt hgp]
            refine ⟨rfl, ?_, fun _ => rfl⟩
            intro _ h2
            rw [htgt] at h2
            cases h2
          · replace htgt : nonBlank (m.lookup tgt) = false := by
              simpa using htgt
            have hgp' := copyPaths_gp_copies src tgt hgp hsrc hbv htgt
            rw [gamePath_some_eq src hgp', gamePath_some_eq tgt hgp',
              gamePath_some_eq src hgp, gamePath_some_eq tgt hgp]
            refine ⟨?_, ?_, ?_⟩
            · by_cases hst : src = tgt
              · subst hst
                rw [lookup_setPath_self, hsrc]
              · rw [lookup_setPath_ne _ _ _ _ hst]
            · intro _ _
              rw [lookup_setPath_self, hsrc]
            · intro hcon
              exfalso
              apply hcon
              rw [hsrc]
              exact ⟨by simp [nonBlank, hbv], htgt⟩

theorem copyPathsFromDevice_fill_gap_witness :
    nonBlank (unitPath unitW "A") = true ∧
    nonBlank (unitPath unitW "B") = false ∧
    ∃ u', ((copyPathsFromDevice "A" "B" gameW).1.save_paths =
        some [u'] ∧ unitPath u' "B" = some "/a/save" ∧
        unitPath u' "A" = some "/a/save") := by
  have hA : nonBlank (unitPath unitW "A") = true := by decide
  have hB : nonBlank (unitPath unitW "B") = false := by decide
  obtain ⟨-, h2, -, -, -⟩ := copyPathsFromDevice_fill_gap "A" "B" gameW
  obtain ⟨units', hsp, hlen, hidx⟩ := h2 [unitW] rfl
  obtain ⟨u', hu', hsrc, hcopy, -⟩ := hidx 0 unitW rfl
  obtain ⟨a, ha⟩ := List.length_eq_one.mp (by simpa using hlen)
  subst ha
  obtain rfl : a = u' := by simpa using hu'
  refine ⟨hA, hB, a, hsp, ?_, ?_⟩
  · rw [hcopy hA hB]
    decide
  · rw [hsrc]
    decide

theorem mem_insertIfAbsent (acc : List String) (id x : String) :
    x ∈ insertIfAbsent acc id ↔ x ∈ acc ∨ x = id := by
  unfold insertIfAbsent
  by_cases h : id ∈ acc
  · rw [if_pos h]
    constructor
    · exact Or.inl
    · rintro (hx | rfl)
      · exact hx
      · exact h
  · rw [if_neg h]
    simp

theorem mem_entriesFold (d x : String) (m : PathMap) (acc : List String) :
    x ∈ m.foldl
        (fun acc2 e =>
          if e.1 != d && e.2 != "" && !(isBlank e.2) then
            insertIfAbsent acc2 e.1
          else acc2)
        acc ↔
      x ∈ acc ∨ ∃ e ∈ m, e.1 = x ∧
        (e.1 != d && e.2 != "" && !(isBlank e.2)) = true := by
  induction m generalizing acc with
  | nil => simp
  | cons hd tl ih =>
    simp only [List.foldl_cons]
    by_cases hc : (hd.1 != d && hd.2 != "" && !(isBlank hd.2)) = true
    · rw [if_pos hc, ih, mem_insertIfAbsent]
      constructor
      · rintro ((hx | rfl) | ⟨e, he, hex, hce⟩)
        · exact Or.inl hx
        · exact Or.inr ⟨hd, List.mem_cons_self hd tl, rfl, hc⟩
        · exact Or.inr ⟨e, List.mem_cons_of_mem hd he, hex, hce⟩
      · rintro (hx | ⟨e, he, hex, hce⟩)
        · exact Or.inl (Or.inl hx)
        · rcases List.mem_cons.mp he with rfl | he'
          · exact Or.inl (Or.inr hex.symm)
          · exact Or.inr ⟨e, he', hex, hce⟩
    · rw [if_neg hc, ih]
      constructor
      · rintro (hx | ⟨e, he, hex, hce⟩)
        · exact Or.inl hx
        · exact Or.inr ⟨e, List.mem_cons_of_mem hd he, hex, hce⟩
      · rintro (hx | ⟨e, he, hex, hce⟩)
        · exact Or.inl hx
        · rcases List.mem_cons.mp he with rfl | he'
          · exact absurd hce hc
          · exact Or.inr ⟨e, he', hex, hce⟩

theorem mem_unitsFold (d x : String) (units : List SaveUnit)
    (acc : List String) :
    x ∈ units.foldl
        (fun acc u =>
          match u.paths with
          | none => acc
          | some m =>
            m.foldl
              (fun acc2 e =>
                if e.1 != d && e.2 != "" && !(isBlank e.2) then
                  insertIfAbsent acc2 e.1
                else acc2)
              acc)
        acc ↔
      x ∈ acc ∨ ∃ u ∈ units, ∃ m, u.paths = some m ∧ ∃ e ∈ m, e.1 = x ∧
        (e.1 != d && e.2 != "" && !(isBlank e.2)) = true := by
  induction units generalizing acc with
  | nil => simp
  | cons hd tl ih =>
    simp only [List.foldl_cons]
    cases hp : hd.paths with
    | none =>
      rw [ih]
      constructor
      · rintro (hx | ⟨u, hu, m, hm, he⟩)
        · exact Or.inl hx
        · exact Or.inr ⟨u, List.mem_cons_of_mem hd hu, m, hm, he⟩
      · rintro (hx | ⟨u, hu, m, hm, he⟩)
        · exact Or.inl hx
        · rcases List.mem_cons.mp hu with rfl | hu'
          · rw [hp] at hm
            cases hm
          · exact Or.inr ⟨u, hu', m, hm, he⟩
    | some m =>
      rw [ih, mem_entriesFold]
      constructor
      · rintro ((hx | ⟨e, he, hex, hce⟩) | ⟨u, hu, m', hm', hee⟩)
        · exact Or.inl hx
        · exact Or.inr ⟨hd, List.mem_cons_self hd tl, m, hp, e, he, hex, hce⟩
        · exact Or.inr ⟨u, List.mem_cons_of_mem hd hu, m', hm', hee⟩
      · rintro (hx | ⟨u, hu, m', hm', e, he, hex, hce⟩)
        · exact Or.inl (Or.inl hx)
        · rcases List.mem_cons.mp hu with rfl | hu'
          · rw [hp] at hm'
            obtain rfl : m = m' := by cases hm'; rfl
            exact Or.inl (Or.inr ⟨e, he, hex, hce⟩)
          · exact Or.inr ⟨u, hu', m', hm', e, he, hex, hce⟩

/-- Membership in the candidate set collected by
`checkCurrentDeviceSavePaths`: exactly the ids distinct from the current
device holding a truthy, non-blank entry in some save unit's path record. -/
theorem mem_devicesWithPaths (d x : String) (units : List SaveUnit) :
    x ∈ devicesWithPaths d units ↔
      ∃ u ∈ units, ∃ m, u.paths = some m ∧ ∃ e ∈ m, e.1 = x ∧ x ≠ d ∧
        e.2 ≠ "" ∧ isBlank e.2 = false := by
  unfold devicesWithPaths
  rw [mem_unitsFold]
  simp only [List.not_mem_nil, false_or]
  constructor
  · rintro ⟨u, hu, m, hm, e, he, rfl, hce⟩
    simp only [Bool.and_eq_true, bne_iff_ne, ne_eq, Bool.not_eq_true',
      beq_iff_eq] at hce
    exact ⟨u, hu, m, hm, e, he, rfl, hce.1.1, hce.1.2, hce.2⟩
  · rintro ⟨u, hu, m, hm, e, he, rfl, hxd, hne, hnb⟩
    refine ⟨u, hu, m, hm, e, he, rfl, ?_⟩
    simp only [Bool.and_eq_true, bne_iff_ne, ne_eq, Bool.not_eq_true',
      beq_iff_eq]
    exact ⟨⟨hxd, hne⟩, hnb⟩

/-- C2 counterexample: the code's candidate collection scans only the save
units, not the launch-path mapping, so on `gameC2` it collects nothing and
`checkCurrentDeviceSavePaths` returns without prompting, although device
`B` has a non-blank launch path and the spec-worded collection yields
`["B"]`. -/
theorem checkCurrentDeviceSavePaths_no_game_paths_scan :
    checkCurrentDeviceSavePaths "A" gameC2 = .noAction ∧
    devicesWithPaths "A" [unitC2] = [] ∧
    devicesWithPathsSpec "A" gameC2 = ["B"] ∧
    nonBlank (gamePath gameC2 "B") = true ∧
    ("B" : String) ≠ "A" := by
  refine ⟨by decide, by decide, by decide, by decide, by decide⟩

/-- C2 (amended). Candidate collection of device-path reconciliation: when
the current device has no non-empty path in any save unit,
`checkCurrentDeviceSavePaths` collects the set of other device ids that
have at least one non-empty path by scanning every save unit's per-device
path mapping only (the launch-path mapping `game_paths` is not scanned),
and prompts with exactly that set when it is non-empty. -/
theorem checkCurrentDeviceSavePaths_candidates (d : String) (g : Game)
    (units : List SaveUnit) (hsp : g.save_paths = some units)
    (hempty : units.all (savePathEmptyFor d) = true) :
    (devicesWithPaths d units = [] →
      checkCurrentDeviceSavePaths d g = .noAction) ∧
    (devicesWithPaths d units ≠ [] →
      checkCurrentDeviceSavePaths d g =
        .promptCopy (devicesWithPaths d units)) ∧
    (∀ x, x ∈ devicesWithPaths d units ↔
      ∃ u ∈ units, ∃ m, u.paths = some m ∧ ∃ e ∈ m, e.1 = x ∧ x ≠ d ∧
        e.2 ≠ "" ∧ isBlank e.2 = false) := by
  refine ⟨?_, ?_, fun x => mem_devicesWithPaths d x units⟩
  · intro hc
    simp [checkCurrentDeviceSavePaths, hsp, hempty, hc]
  · intro hc
    simp [checkCurrentDeviceSavePaths, hsp, hempty,
      List.isEmpty_iff.not.mpr hc]

theorem checkCurrentDeviceSavePaths_candidates_witness :
    [unitC2b].all (savePathEmptyFor "A") = true ∧
    checkCurrentDeviceSavePaths "A" gameC2b = .promptCopy ["B"] ∧
    ("B" ∈ devicesWithPaths "A" [unitC2b]) := by
  have hempty : [unitC2b].all (savePathEmptyFor "A") = true := by decide
  obtain ⟨-, h2, h3⟩ :=
    checkCurrentDeviceSavePaths_candidates "A" gameC2b [unitC2b] rfl hempty
  have hmem : ("B" ∈ devicesWithPaths "A" [unitC2b]) := by
    rw [h3]
    exact ⟨unitC2b, by decide, [("B", "/b/save")], rfl,
      ("B", "/b/save"), by decide, rfl, by decide, by decide, by decide⟩
  have hne : devicesWithPaths "A" [unitC2b] ≠ [] := by
    intro h
    rw [h] at hmem
    cases hmem
  refine ⟨hempty, ?_, hmem⟩
  rw [h2 hne]
  have : devicesWithPaths "A" [unitC2b] = ["B"] := by decide
  rw [this]

theorem Game.eq_of_fields {g1 g2 : Game} (h1 : g1.name = g2.name)
    (h2 : g1.save_paths = g2.save_paths)
    (h3 : g1.game_paths = g2.game_paths) : g1 = g2 := by
  cases g1
  cases g2
  cases h1
  cases h2
  cases h3
  rfl

theorem copyPaths_name (src tgt : String) (g : Game) :
    (copyPathsFromDevice src tgt g).1.name = g.name := rfl

theorem copyPaths_snd_split (src tgt : String) (g : Game) :
    (copyPathsFromDevice src tgt g).2 =
      ((match g.save_paths with
        | none => false
        | some units => (units.map (copyUnit src tgt)).any Prod.snd) ||
       (match g.game_paths with
        | none => false
        | some m =>
          match m.lookup src with
          | none => false
          | some v =>
            if isBlank v then false
            else if nonBlank (m.lookup tgt) then false
            else true)) := by
  cases hsp : g.save_paths with
  | none =>
    cases hgp : g.game_paths with
    | none => simp [copyPathsFromDevice, hsp, hgp]
    | some m =>
      cases hsrc : m.lookup src with
      | none => simp [copyPathsFromDevice, hsp, hgp, hsrc]
      | some v =>
        by_cases hbv : isBlank v
        · simp [copyPathsFromDevice, hsp, hgp, hsrc, hbv]
        · by_cases htgt : nonBlank (m.lookup tgt)
          · simp [copyPathsFromDevice, hsp, hgp, hsrc, hbv, htgt]
          · simp [copyPathsFromDevice, hsp, hgp, hsrc, hbv, htgt]
  | some units =>
    cases hgp : g.game_paths with
    | none => simp [copyPathsFromDevice, copySaveUnits, hsp, hgp]
    | some m =>
      cases hsrc : m.lookup src with
      | none => simp [copyPathsFromDevice, copySaveUnits, hsp, hgp, hsrc]
      | some v =>
        by_cases hbv : isBlank v
        · simp [copyPathsFromDevice, copySaveUnits, hsp, hgp, hsrc, hbv]
        · by_cases htgt : nonBlank (m.lookup tgt)
          · simp [copyPathsFromDevice, copySaveUnits, hsp, hgp, hsrc, hbv,
              htgt]
          · simp [copyPathsFromDevice, copySaveUnits, hsp, hgp, hsrc, hbv,
              htgt]

theorem mapCopyUnit_fst_eq (src tgt : String) (units : List SaveUnit)
    (h : (units.map (copyUnit src tgt)).any Prod.snd = false) :
    units.map (fun u => (copyUnit src tgt u).1) = units := by
  have hall : ∀ u ∈ units, (copyUnit src tgt u).2 = false := by
    intro u hu
    have := List.any_eq_false.mp h _ (List.mem_map_of_mem _ hu)
    simpa using this
  have h1 : units.map (fun u => (copyUnit src tgt u).1) = units.map id :=
    List.map_congr_left (fun u hu => copyUnit_snd_false src tgt u (hall u hu))
  rw [h1, List.map_id]

theorem mapCopyUnit_fst_ne (src tgt : String) (units : List SaveUnit)
    (h : (units.map (copyUnit src tgt)).any Prod.snd = true) :
    units.map (fun u => (copyUnit src tgt u).1) ≠ units := by
  obtain ⟨r, hr, hr2⟩ := List.any_eq_true.mp h
  obtain ⟨u, hu, rfl⟩ := List.mem_map.mp hr
  intro heq
  obtain ⟨i, hgi⟩ := List.mem_iff_getElem?.mp hu
  have h2 : (units.map (fun u => (copyUnit src tgt u).1))[i]? =
      units[i]? := by rw [heq]
  rw [List.getElem?_map, hgi] at h2
  have hfix : (copyUnit src tgt u).1 = u := by
    simpa using h2
  have hne := copyUnit_snd_true src tgt u hr2
  rw [hfix] at hne
  exact hne rfl

theorem setPath_ne_of_changed (m : PathMap) (tgt v : String)
    (hv : isBlank v = false) (htgt : nonBlank (m.lookup tgt) = false) :
    setPath m tgt v ≠ m := by
  intro heq
  have hself := lookup_setPath_self m tgt v
  rw [heq] at hself
  rw [hself] at htgt
  simp [nonBlank, hv] at htgt

/-- When `copyPathsFromDevice` reports no update, the game document is
untouched. -/
theorem copyPaths_not_updated (src tgt : String) (g : Game)
    (h : (copyPathsFromDevice src tgt g).2 = false) :
    (copyPathsFromDevice src tgt g).1 = g := by
  rw [copyPaths_snd_split] at h
  rw [Bool.or_eq_false_iff] at h
  obtain ⟨hspf, hgpf⟩ := h
  refine Game.eq_of_fields (copyPaths_name src tgt g) ?_ ?_
  · cases hsp : g.save_paths with
    | none => exact copyPaths_sp_none src tgt hsp
    | some units =>
      rw [copyPaths_sp_some src tgt hsp]
      rw [hsp] at hspf
      dsimp only at hspf
      exact congrArg some (mapCopyUnit_fst_eq src tgt units hspf)
  · cases hgp : g.game_paths with
    | none => exact copyPaths_gp_none src tgt hgp
    | some m =>
      rw [hgp] at hgpf
      dsimp only at hgpf
      cases hsrc : m.lookup src with
      | none => exact copyPaths_gp_src_absent src tgt hgp hsrc
      | some v =>
        rw [hsrc] at hgpf
        dsimp only at hgpf
        by_cases hbv : isBlank v
        · exact copyPaths_gp_src_blank src tgt hgp hsrc hbv
        · replace hbv : isBlank v = false := by simpa using hbv
          by_cases htgt : nonBlank (m.lookup tgt)
          · exact copyPaths_gp_tgt_nonblank src tgt hgp hsrc hbv htgt
          · rw [hbv] at hgpf
            simp only [Bool.false_eq_true, if_false] at hgpf
            rw [if_neg (by simpa using htgt)] at hgpf
            cases hgpf

/-- When `copyPathsFromDevice` reports an update, at least one path entry
actually changed, so the game document differs. -/
theorem copyPaths_updated_ne (src tgt : String) (g : Game)
    (h : (copyPathsFromDevice src tgt g).2 = true) :
    (copyPathsFromDevice src tgt g).1 ≠ g := by
  rw [copyPaths_snd_split, Bool.or_eq_true] at h
  rcases h with hspf | hgpf
  · cases hsp : g.save_paths with
    | none => rw [hsp] at hspf; dsimp only at hspf; cases hspf
    | some units =>
      rw [hsp] at hspf
      dsimp only at hspf
      intro heq
      have hcomp : (copyPathsFromDevice src tgt g).1.save_paths =
          g.save_paths := by rw [heq]
      rw [copyPaths_sp_some src tgt hsp, hsp] at hcomp
      exact mapCopyUnit_fst_ne src tgt units hspf (Option.some.inj hcomp)
  · cases hgp : g.game_paths with
    | none => rw [hgp] at hgpf; dsimp only at hgpf; cases hgpf
    | some m =>
      rw [hgp] at hgpf
      dsimp only at hgpf
      cases hsrc : m.lookup src with
      | none => rw [hsrc] at hgpf; dsimp only at hgpf; cases hgpf
      | some v =>
        rw [hsrc] at hgpf
        dsimp only at hgpf
        by_cases hbv : isBlank v
        · rw [if_pos hbv] at hgpf; cases hgpf
        · replace hbv : isBlank v = false := by simpa using hbv
          rw [hbv] at hgpf
          simp only [Bool.false_eq_true, if_false] at hgpf
          by_cases htgt : nonBlank (m.lookup tgt)
          · rw [if_pos htgt] at hgpf; cases hgpf
          · replace htgt : nonBlank (m.lookup tgt) = false := by
              simpa using htgt
            intro heq
            have hcomp : (copyPathsFromDevice src tgt g).1.game_paths =
                g.game_paths := by rw [heq]
            rw [copyPaths_gp_copies src tgt hgp hsrc hbv htgt, hgp] at hcomp
            exact setPath_ne_of_changed m tgt v hbv htgt
              (Option.some.inj hcomp)

/-- C7. Reconciliation no-op and persist-only-if-changed: when no other
device has any non-empty save-unit path, `checkCurrentDeviceSavePaths`
returns `noAction` (no prompt, no mutation, no `saveConfig`); and the
persistence tail of `copyPathsFromDevice` calls `saveConfig` only when at
least one path entry actually changed, leaving the game and the
configuration document untouched otherwise. -/
theorem reconciliation_noop_and_persist_only_if_changed :
    (∀ (d : String) (g : Game) (units : List SaveUnit),
      g.save_paths = some units →
      devicesWithPaths d units = [] →
      checkCurrentDeviceSavePaths d g = .noAction) ∧
    (∀ (src tgt : String) (g : Game) (games : List Game),
      ((copyPathsFromDeviceFull src tgt g games).updated = false →
        (copyPathsFromDeviceFull src tgt g games).game = g ∧
        (copyPathsFromDeviceFull src tgt g games).games = games ∧
        (copyPathsFromDeviceFull src tgt g games).savedConfig = false) ∧
      ((copyPathsFromDeviceFull src tgt g games).savedConfig = true →
        (copyPathsFromDeviceFull src tgt g games).game ≠ g)) := by
  constructor
  · intro d g units hsp hc
    by_cases hall : units.all (savePathEmptyFor d)
    · simp [checkCurrentDeviceSavePaths, hsp, hall, hc]
    · simp [checkCurrentDeviceSavePaths, hsp, hall]
  · intro src tgt g games
    by_cases hr : (copyPathsFromDevice src tgt g).2
    · constructor
      · intro hupd
        exfalso
        unfold copyPathsFromDeviceFull at hupd
        rw [if_pos hr] at hupd
        cases hidx : (games.findIdx?
            (fun x => x.name == (copyPathsFromDevice src tgt g).1.name)) with
        | none => rw [hidx] at hupd; cases hupd
        | some i => rw [hidx] at hupd; cases hupd
      · intro _
        have hgoal : (copyPathsFromDeviceFull src tgt g games).game =
            (copyPathsFromDevice src tgt g).1 := by
          unfold copyPathsFromDeviceFull
          rw [if_pos hr]
          cases hidx : (games.findIdx?
              (fun x => x.name == (copyPathsFromDevice src tgt g).1.name)) with
          | none => rfl
          | some i => rfl
        rw [hgoal]
        exact copyPaths_updated_ne src tgt g hr
    · replace hr : (copyPathsFromDevice src tgt g).2 = false := by
        simpa using hr
      have hfull : copyPathsFromDeviceFull src tgt g games =
          { game := (copyPathsFromDevice src tgt g).1, games := games,
            updated := false, savedConfig := false } := by
        simp only [copyPathsFromDeviceFull]
        simp [hr]
      rw [hfull]
      refine ⟨fun _ => ⟨copyPaths_not_updated src tgt g hr, rfl, rfl⟩, ?_⟩
      intro hsc
      cases hsc

theorem reconciliation_noop_witness :
    devicesWithPaths "A" [unitC7] = [] ∧
    checkCurrentDeviceSavePaths "A" gameC7 = .noAction ∧
    (copyPathsFromDeviceFull "A" "A" gameC7 [gameC7]).updated = false ∧
    (copyPathsFromDeviceFull "A" "A" gameC7 [gameC7]).game = gameC7 ∧
    (copyPathsFromDeviceFull "A" "A" gameC7 [gameC7]).games = [gameC7] ∧
    (copyPathsFromDeviceFull "A" "A" gameC7 [gameC7]).savedConfig = false := by
  obtain ⟨h1, h2⟩ := reconciliation_noop_and_persist_only_if_changed
  have hc : devicesWithPaths "A" [unitC7] = [] := by decide
  have hupd : (copyPathsFromDeviceFull "A" "A" gameC7 [gameC7]).updated =
      false := by decide
  obtain ⟨hgame, hgames, hsc⟩ := (h2 "A" "A" gameC7 [gameC7]).1 hupd
  exact ⟨hc, h1 "A" gameC7 [unitC7] rfl hc, hupd, hgame, hgames, hsc⟩

theorem importUnit_unitPath_tgt (src tgt : String) (u : SaveUnit) :
    unitPath (importUnit src tgt u) tgt =
      (if truthy (unitPath u src) then unitPath u src else unitPath u tgt) := by
  rcases u with ⟨ut, mp, del⟩
  cases mp with
  | none => rfl
  | some m =>
    have hup : unitPath ⟨ut, some m, del⟩ src = m.lookup src := rfl
    rw [hup]
    cases hsrc : m.lookup src with
    | none =>
      simp only [truthy, Bool.false_eq_true, if_false]
      simp [importUnit, hsrc, unitPath]
    | some v =>
      by_cases hv : v = ""
      · subst hv
        simp only [truthy, bne_self_eq_false, Bool.false_eq_true, if_false]
        simp [importUnit, hsrc, unitPath]
      · have htr : truthy (some v) = true := by simp [truthy, hv]
        rw [htr, if_pos rfl]
        have himp : importUnit src tgt ⟨ut, some m, del⟩ =
            ⟨ut, some (setPath m tgt v), del⟩ := by
          simp [importUnit, hsrc, hv]
        rw [himp]
        show (setPath m tgt v).lookup tgt = some v
        exact lookup_setPath_self m tgt v

theorem importGame_gamePath_tgt (src tgt : String) (g : Game) :
    gamePath (importGame src tgt g) tgt =
      (if truthy (gamePath g src) then gamePath g src else gamePath g tgt) := by
  cases hgp : g.game_paths with
  | none =>
    rw [gamePath_none_eq src hgp, gamePath_none_eq tgt hgp]
    simp only [truthy, Bool.false_eq_true, if_false]
    have : (importGame src tgt g).game_paths = none := by
      simp [importGame, hgp]
    rw [gamePath_none_eq tgt this]
  | some m =>
    rw [gamePath_some_eq src hgp, gamePath_some_eq tgt hgp]
    cases hsrc : m.lookup src with
    | none =>
      simp only [truthy, Bool.false_eq_true, if_false]
      have : (importGame src tgt g).game_paths = some m := by
        simp [importGame, hgp, hsrc]
      rw [gamePath_some_eq tgt this]
    | some v =>
      by_cases hv : v = ""
      · subst hv
        simp only [truthy, bne_self_eq_false, Bool.false_eq_true, if_false]
        have : (importGame src tgt g).game_paths = some m := by
          simp [importGame, hgp, hsrc]
        rw [gamePath_some_eq tgt this]
      · have htr : truthy (some v) = true := by simp [truthy, hv]
        rw [htr, if_pos rfl]
        have : (importGame src tgt g).game_paths =
            some (setPath m tgt v) := by
          simp [importGame, hgp, hsrc, hv]
        rw [gamePath_some_eq tgt this]
        exact lookup_setPath_self m tgt v

/-- C10. The Settings-page bulk import is not fill-gap: for every game,
every save-unit path and launch path the source device has recorded
(truthy entry) is copied onto the current device's entry unconditionally,
overwriting any existing value; on the concrete two-device unit the import
overwrites `B`'s path while the per-game reconciliation (`copyUnit`)
preserves it. -/
theorem importFromDevice_overwrites (src tgt : String)
    (games : List Game) :
    (importFromDevice src tgt games).length = games.length ∧
    (∀ (i : Nat) (g : Game), games[i]? = some g →
      (importFromDevice src tgt games)[i]? = some (importGame src tgt g)) ∧
    (∀ g : Game, ∀ units, g.save_paths = some units →
      (importGame src tgt g).save_paths =
        some (units.map (importUnit src tgt))) ∧
    (∀ u : SaveUnit, unitPath (importUnit src tgt u) tgt =
      (if truthy (unitPath u src) then unitPath u src
       else unitPath u tgt)) ∧
    (∀ g : Game, gamePath (importGame src tgt g) tgt =
      (if truthy (gamePath g src) then gamePath g src
       else gamePath g tgt)) ∧
    (unitPath (importUnit "A" "B" unitC10) "B" = some "/a/save" ∧
      unitPath (copyUnit "A" "B" unitC10).1 "B" = some "/b/save") := by
  refine ⟨by simp [importFromDevice], ?_, ?_,
    importUnit_unitPath_tgt src tgt, importGame_gamePath_tgt src tgt,
    by decide, by decide⟩
  · intro i g hg
    simp [importFromDevice, List.getElem?_map, hg]
  · intro g units hsp
    simp [importGame, hsp]

theorem importFromDevice_overwrites_witness :
    (importFromDevice "A" "B" [gameC10])[0]? =
      some (importGame "A" "B" gameC10) ∧
    (importGame "A" "B" gameC10).save_paths =
      some [importUnit "A" "B" unitC10] := by
  obtain ⟨-, hidx, hsp, -, -, -⟩ :=
    importFromDevice_overwrites "A" "B" [gameC10]
  refine ⟨hidx 0 _ rfl, ?_⟩
  have := hsp gameC10 [unitC10] rfl
  simpa using this

/-- C4 counterexample: on a `quick_action` whose `sounds` is present but
partially filled (an empty object), `ensureQuickActionDefaults` leaves the
slots untouched, so `sounds.success` and `sounds.failure` remain
undefined after normalization, contradicting the claim. -/
theorem ensureQuickActionDefaults_partial_counterexample :
    (ensureQuickActionDefaults qaPartialSounds).sounds =
      some { success := none, failure := none } ∧
    (ensureQuickActionDefaults qaPartialSounds).enable_sound = some true ∧
    (ensureQuickActionDefaults qaPartialSounds).enable_notification =
      some true := by
  refine ⟨by decide, by decide, by decide⟩

/-- C4 (amended). After `ensureQuickActionDefaults`, missing
`enable_sound` / `enable_notification` default to `true`; a missing
`sounds` defaults to `{success: {kind: "default"}, failure:
{kind: "default"}}` (both slots then defined); but a present `sounds`
object is left unchanged, so slots of a partially-filled `sounds` may
remain undefined. -/
theorem ensureQuickActionDefaults_spec (qa : QuickActionsSettings) :
    (ensureQuickActionDefaults qa).enable_sound =
      some (qa.enable_sound.getD true) ∧
    (ensureQuickActionDefaults qa).enable_notification =
      some (qa.enable_notification.getD true) ∧
    (qa.sounds = none →
      (ensureQuickActionDefaults qa).sounds =
        some { success := some .dflt, failure := some .dflt }) ∧
    (∀ s, qa.sounds = some s →
      (ensureQuickActionDefaults qa).sounds = some s) := by
  rcases qa with ⟨es, en, snd⟩
  cases es <;> cases en <;> cases snd <;>
    simp [ensureQuickActionDefaults]

theorem ensureQuickActionDefaults_spec_witness :
    (ensureQuickActionDefaults
        { enable_sound := none, enable_notification := some false,
          sounds := none }).enable_sound = some true ∧
    (ensureQuickActionDefaults
        { enable_sound := none, enable_notification := some false,
          sounds := none }).enable_notification = some false ∧
    (ensureQuickActionDefaults
        { enable_sound := none, enable_notification := some false,
          sounds := none }).sounds =
      some { success := some .dflt, failure := some .dflt } := by
  obtain ⟨h1, h2, h3, -⟩ := ensureQuickActionDefaults_spec
    { enable_sound := none, enable_notification := some false,
      sounds := none }
  exact ⟨h1, h2, h3 rfl⟩

/-- C8. Sound-mode switch path retention: switching an effect to `file`
preserves a previously stored file path when the slot is already a file
source and otherwise starts blank; switching to `default` replaces the
slot with `{kind: "default"}`, discarding any stored path; hence the
sequence file, path `x.wav`, default, file ends with an empty path. -/
theorem soundMode_switch_path_retention :
    (∀ (s : QuickActionsSettings) (slots : SoundSlots),
      (ensureQuickActionDefaults s).sounds = some slots →
      (∀ p, slots.success = some (.file p) →
        ∃ s2, setSuccessSoundMode .file (some s) = some s2 ∧
          s2.sounds = some { slots with
            success := some (.file (some (p.getD ""))) }) ∧
      (isFileSource slots.success = false →
        ∃ s2, setSuccessSoundMode .file (some s) = some s2 ∧
          s2.sounds = some { slots with success := some (.file (some "")) }) ∧
      (∃ s2, setSuccessSoundMode .dflt (some s) = some s2 ∧
        s2.sounds = some { slots with success := some .dflt }) ∧
      (∀ p, slots.failure = some (.file p) →
        ∃ s2, setFailureSoundMode .file (some s) = some s2 ∧
          s2.sounds = some { slots with
            failure := some (.file (some (p.getD ""))) }) ∧
      (isFileSource slots.failure = false →
        ∃ s2, setFailureSoundMode .file (some s) = some s2 ∧
          s2.sounds = some { slots with failure := some (.file (some "")) }) ∧
      (∃ s2, setFailureSoundMode .dflt (some s) = some s2 ∧
        s2.sounds = some { slots with failure := some .dflt })) ∧
    (setSuccessSoundPath "x.wav"
        (setSuccessSoundMode .file (some qaDefault)) =
      some { qaDefault with
        sounds :=
          some { success := some (.file (some "x.wav")), failure := some .dflt } }) ∧
    (setSuccessSoundMode .file
        (setSuccessSoundMode .dflt
          (setSuccessSoundPath "x.wav"
            (setSuccessSoundMode .file (some qaDefault)))) =
      some { qaDefault with
        sounds :=
          some { success := some (.file (some "")), failure := some .dflt } }) := by
  refine ⟨?_, by decide, by decide⟩
  intro s slots hslots
  have hslotsEq : ensureSoundSlots (some s) =
      (some (ensureQuickActionDefaults s), some slots) := by
    simp [ensureSoundSlots, hslots]
  refine ⟨?_, ?_, ?_, ?_, ?_, ?_⟩
  · intro p hp
    refine ⟨{ ensureQuickActionDefaults s with
      sounds := some { slots with success := some (.file (some (p.getD ""))) } },
      ?_, rfl⟩
    simp only [setSuccessSoundMode, hslotsEq]
    simp [hp]
  · intro hnf
    refine ⟨{ ensureQuickActionDefaults s with
      sounds := some { slots with success := some (.file (some "")) } },
      ?_, rfl⟩
    simp only [setSuccessSoundMode, hslotsEq]
    cases hsl : slots.success with
    | none => simp [hsl]
    | some src =>
      cases src with
      | dflt => simp [hsl]
      | file p => rw [hsl] at hnf; simp [isFileSource] at hnf
  · refine ⟨{ ensureQuickActionDefaults s with
      sounds := some { slots with success := some .dflt } }, ?_, rfl⟩
    simp only [setSuccessSoundMode, hslotsEq]
  · intro p hp
    refine ⟨{ ensureQuickActionDefaults s with
      sounds := some { slots with failure := some (.file (some (p.getD ""))) } },
      ?_, rfl⟩
    simp only [setFailureSoundMode, hslotsEq]
    simp [hp]
  · intro hnf
    refine ⟨{ ensureQuickActionDefaults s with
      sounds := some { slots with failure := some (.file (some "")) } },
      ?_, rfl⟩
    simp only [setFailureSoundMode, hslotsEq]
    cases hsl : slots.failure with
    | none => simp [hsl]
    | some src =>
      cases src with
      | dflt => simp [hsl]
      | file p => rw [hsl] at hnf; simp [isFileSource] at hnf
  · refine ⟨{ ensureQuickActionDefaults s with
      sounds := some { slots with failure := some .dflt } }, ?_, rfl⟩
    simp only [setFailureSoundMode, hslotsEq]

theorem soundMode_switch_path_retention_witness :
    ∃ s2, setSuccessSoundMode SoundMode.dflt (some qaDefault) = some s2 ∧
      s2.sounds =
        some { success := some SoundSource.dflt, failure := some SoundSource.dflt } := by
  obtain ⟨hgen, -, -⟩ := soundMode_switch_path_retention
  obtain ⟨-, -, hdf, -, -, -⟩ := hgen qaDefault
    { success := some .dflt, failure := some .dflt } (by decide)
  exact hdf

/-- C5. `refreshConfig` failure recovery: whenever the backend returns an
error result or the call throws, the stored config becomes the hardcoded
default document (never null), exactly one translated error notification
is shown, and the loading flag is cleared on every exit path; two failing
refreshes in a row leave the config equal to the same default document
both times. -/
theorem refreshConfig_failure_recovery (dc : ConfigDoc)
    (st : ConfigStore) :
    (∀ r : BackendResult ConfigDoc,
      (refreshConfig dc st r).1.isLoading = false) ∧
    (∀ (r : BackendResult ConfigDoc) (e : String),
      r = .err e ∨ r = .exn e →
      (refreshConfig dc st r).1.config = dc ∧
      (refreshConfig dc st r).2 = ["error.config_load_failed"]) ∧
    (∀ (r1 r2 : BackendResult ConfigDoc) (e1 e2 : String),
      (r1 = .err e1 ∨ r1 = .exn e1) →
      (r2 = .err e2 ∨ r2 = .exn e2) →
      (refreshConfig dc st r1).1.config = dc ∧
      (refreshConfig dc (refreshConfig dc st r1).1 r2).1.config = dc) := by
  refine ⟨?_, ?_, ?_⟩
  · intro r
    cases r <;> rfl
  · rintro r e (rfl | rfl) <;> exact ⟨rfl, rfl⟩
  · rintro r1 r2 e1 e2 (rfl | rfl) (rfl | rfl) <;> exact ⟨rfl, rfl⟩

theorem refreshConfig_failure_recovery_witness :
    (refreshConfig dcW stW (.err "boom")).1.isLoading = false ∧
    (refreshConfig dcW stW (.err "boom")).1.config = dcW ∧
    (refreshConfig dcW stW (.err "boom")).2 =
      ["error.config_load_failed"] ∧
    (refreshConfig dcW (refreshConfig dcW stW (.err "boom")).1
      (.exn "down")).1.config = dcW := by
  obtain ⟨h1, h2, h3⟩ := refreshConfig_failure_recovery dcW stW
  obtain ⟨h4, h5⟩ := h2 (.err "boom") "boom" (Or.inl rfl)
  obtain ⟨-, h6⟩ := h3 (.err "boom") (.exn "down") "boom" "down"
    (Or.inl rfl) (Or.inr rfl)
  exact ⟨h1 (.err "boom"), h4, h5, h6⟩

/-- C9. Notification duration and title resolution: the rendered duration
is the explicitly supplied one when present, else 0 when `persistent` is
set, else the type default — 3000 ms for every type; the rendered title is
the explicit one when supplied, else the type default. -/
theorem showNotification_resolution (t : NotificationType)
    (o : NotificationOptions) :
    (∀ d, o.duration = some d → (showNotification t o).duration = d) ∧
    (o.duration = none → o.persistent.getD false = true →
      (showNotification t o).duration = 0) ∧
    (o.duration = none → o.persistent.getD false = false →
      (showNotification t o).duration = defaultDurations t) ∧
    defaultDurations t = 3000 ∧
    (∀ s, o.title = some s → (showNotification t o).title = s) ∧
    (o.title = none → (showNotification t o).title = defaultTitles t) ∧
    (showNotification t o).message = o.message ∧
    (showNotification t o).typ = t := by
  refine ⟨?_, ?_, ?_, by cases t <;> rfl, ?_, ?_, rfl, rfl⟩
  · intro d hd
    simp [showNotification, hd]
  · intro hd hp
    simp [showNotification, hd, hp]
  · intro hd hp
    simp [showNotification, hd, hp]
  · intro s hs
    simp [showNotification, hs]
  · intro hs
    simp [showNotification, hs]

theorem showNotification_resolution_witness :
    (showNotification .error
        { title := none, duration := none, message := "m",
          persistent := some true }).duration = 0 ∧
    (showNotification .info
        { title := none, duration := none, message := "m",
          persistent := none }).duration = 3000 ∧
    (showNotification .warning
        { title := some "T", duration := some 42, message := "m",
          persistent := some true }).duration = 42 ∧
    (showNotification .warning
        { title := some "T", duration := some 42, message := "m",
          persistent := some true }).title = "T" ∧
    (showNotification .success
        { title := none, duration := none, message := "m",
          persistent := none }).title = "misc.success" := by
  obtain ⟨-, hp, -, -, -, -, -, -⟩ := showNotification_resolution .error
    { title := none, duration := none, message := "m",
      persistent := some true }
  obtain ⟨-, -, hd, h3000, -, -, -, -⟩ := showNotification_resolution .info
    { title := none, duration := none, message := "m", persistent := none }
  obtain ⟨hexp, -, -, -, ht, -, -, -⟩ := showNotification_resolution .warning
    { title := some "T", duration := some 42, message := "m",
      persistent := some true }
  obtain ⟨-, -, -, -, -, hdt, -, -⟩ := showNotification_resolution .success
    { title := none, duration := none, message := "m", persistent := none }
  refine ⟨hp rfl rfl, ?_, hexp 42 rfl, ht "T" rfl, hdt rfl⟩
  rw [hd rfl rfl, h3000]

/-- C6. Notification FIFO ordering: in every reachable state of the queue
system the rendered sequence followed by the pending queue equals the full
enqueue sequence — so notifications render exactly in enqueue order, one
at a time — every inter-render wait is the fixed 100 ms, and once the
queue is drained the rendered sequence is the entire enqueue sequence.
(The `beginWork` guard `isProcessing = false` is the code's check that no
second worker starts while one is draining.) -/
theorem notification_fifo (s : QueueState) (h : QueueReachable s) :
    s.enqueued = s.rendered ++ s.messageQueue ∧
    (∀ d ∈ s.waits, d = interNotificationDelayMs) ∧
    (s.messageQueue = [] → s.rendered = s.enqueued) := by
  have hmain : s.enqueued = s.rendered ++ s.messageQueue ∧
      (∀ d ∈ s.waits, d = interNotificationDelayMs) := by
    induction h with
    | refl => exact ⟨rfl, by intro d hd; cases hd⟩
    | tail hsteps hstep ih =>
      obtain ⟨ih1, ih2⟩ := ih
      cases hstep with
      | enqueue q =>
        refine ⟨?_, ih2⟩
        simp only []
        rw [ih1, List.append_assoc]
      | beginWork h1 h2 => exact ⟨ih1, ih2⟩
      | renderStep q rest h1 h2 =>
        constructor
        · simp only []
          rw [ih1, h2, List.append_assoc]
          rfl
        · intro d hd
          simp only [List.mem_append] at hd
          rcases hd with hd | hd
          · exact ih2 d hd
          · simpa using hd
      | endWork h1 h2 => exact ⟨ih1, ih2⟩
  refine ⟨hmain.1, hmain.2, ?_⟩
  intro hq
  rw [hmain.1, hq, List.append_nil]

theorem notification_fifo_witness :
    QueueReachable queueStateW ∧
    queueStateW.enqueued = queueStateW.rendered ++ queueStateW.messageQueue ∧
    (∀ d ∈ queueStateW.waits, d = interNotificationDelayMs) ∧
    queueStateW.rendered = queueStateW.enqueued := by
  have hreach : QueueReachable queueStateW := by
    have s0 := Relation.ReflTransGen.refl
      (r := QueueStep) (a := initQueueState)
    have s1 := Relation.ReflTransGen.tail s0
      (QueueStep.enqueue initQueueState qnW)
    have s2 := Relation.ReflTransGen.tail s1
      (QueueStep.beginWork _ rfl (by decide))
    have s3 := Relation.ReflTransGen.tail s2
      (QueueStep.renderStep _ qnW [] rfl rfl)
    have s4 := Relation.ReflTransGen.tail s3
      (QueueStep.enqueue _ qnW2)
    have s5 := Relation.ReflTransGen.tail s4
      (QueueStep.renderStep _ qnW2 [] rfl rfl)
    have s6 := Relation.ReflTransGen.tail s5
      (QueueStep.endWork _ rfl rfl)
    exact s6
  obtain ⟨h1, h2, h3⟩ := notification_fifo queueStateW hreach
  exact ⟨hreach, h1, h2, h3 rfl⟩

theorem length_le_of_subset_nodup {l1 l2 : List Nat} (h1 : l1.Nodup)
    (hsub : l1 ⊆ l2) : l1.length ≤ l2.length := by
  calc l1.length = l1.toFinset.card :=
        (List.toFinset_card_of_nodup h1).symm
    _ ≤ l2.toFinset.card := Finset.card_le_card (fun x hx => by
        simp only [List.mem_toFinset] at hx ⊢
        exact hsub hx)
    _ ≤ l2.length := l2.toFinset_card_le

/-- Stack balance: when pops never outnumber pushes on any prefix, the
final stack length is the initial length plus starts minus settles
(stated additively). -/
theorem runLoading_length (tr : List LoadEvent) :
    ∀ stack : List String,
      (∀ n, (settledIds (tr.take n)).length ≤
        stack.length + (startedIds (tr.take n)).length) →
      (runLoading stack tr).length + (settledIds tr).length =
        stack.length + (startedIds tr).length := by
  induction tr with
  | nil =>
    intro stack _
    simp [runLoading, settledIds, startedIds]
  | cons e t ih =>
    intro stack h
    cases e with
    | start i m =>
      have hcond : ∀ n, (settledIds (t.take n)).length ≤
          (startLoading m stack).length +
            (startedIds (t.take n)).length := by
        intro n
        have hn := h (n + 1)
        simp only [List.take_succ_cons, settledIds, startedIds,
          List.filterMap_cons, evStart?, evSettle?, startLoading,
          List.length_cons] at hn ⊢
        omega
      have hih := ih (startLoading m stack) hcond
      simp only [runLoading, settledIds, startedIds, List.filterMap_cons,
        evStart?, evSettle?, startLoading, List.length_cons] at hih ⊢
      omega
    | settle i =>
      have hne : stack ≠ [] := by
        have h1 := h 1
        cases stack with
        | nil =>
          exfalso
          simp only [List.take_succ_cons, List.take_zero, settledIds,
            startedIds, List.filterMap_cons, evSettle?, evStart?,
            List.filterMap_nil, List.length_nil, List.length_cons] at h1
          omega
        | cons a s0 => intro hc; cases hc
      obtain ⟨a, s0, rfl⟩ := List.exists_cons_of_ne_nil hne
      have hcond : ∀ n, (settledIds (t.take n)).length ≤
          s0.length + (startedIds (t.take n)).length := by
        intro n
        have hn := h (n + 1)
        simp only [List.take_succ_cons, settledIds, startedIds,
          List.filterMap_cons, evSettle?, evStart?,
          List.length_cons] at hn ⊢
        omega
      have hih := ih s0 hcond
      simp only [runLoading, stopLoading, settledIds, startedIds,
        List.filterMap_cons, evSettle?, evStart?,
        List.length_cons] at hih ⊢
      omega

/-- C3. Loading-stack balance: for every well-formed interleaving of
`withLoading(op)` calls — each call pushes before its operation runs and
pops exactly once when it settles, on fulfilment and rejection alike —
`isLoading` is true iff at least one call has started and not yet settled;
after all started calls settle, `isLoading` is false; and the stack length
is exactly the number of started-but-unsettled calls. -/
theorem withLoading_stack_balance (tr : List LoadEvent) (h : WFTrace tr) :
    ((isLoading (runLoading [] tr) = true) ↔
      ∃ i ∈ startedIds tr, i ∉ settledIds tr) ∧
    ((∀ i ∈ startedIds tr, i ∈ settledIds tr) →
      isLoading (runLoading [] tr) = false) ∧
    ((runLoading [] tr).length + (settledIds tr).length =
      (startedIds tr).length) := by
  obtain ⟨hndS, hndT, hsub⟩ := h
  have hcond : ∀ n, (settledIds (tr.take n)).length ≤
      ([] : List String).length + (startedIds (tr.take n)).length := by
    intro n
    simp only [List.length_nil, Nat.zero_add]
    have hnd : (settledIds (tr.take n)).Nodup :=
      hndT.sublist ((List.take_sublist n tr).filterMap evSettle?)
    exact length_le_of_subset_nodup hnd (hsub n)
  have hcount := runLoading_length tr [] hcond
  simp only [List.length_nil, Nat.zero_add] at hcount
  have hsubfull : settledIds tr ⊆ startedIds tr := by
    have := hsub tr.length
    simpa [List.take_length] using this
  have key : (settledIds tr).length < (startedIds tr).length ↔
      ∃ i ∈ startedIds tr, i ∉ settledIds tr := by
    constructor
    · intro hlt
      by_contra hno
      push_neg at hno
      have := length_le_of_subset_nodup hndS hno
      omega
    · rintro ⟨i, hiS, hiT⟩
      have hfin : (settledIds tr).toFinset ⊆
          ((startedIds tr).toFinset.erase i) := by
        intro x hx
        rw [List.mem_toFinset] at hx
        rw [Finset.mem_erase]
        refine ⟨fun hxi => hiT (hxi ▸ hx), ?_⟩
        rw [List.mem_toFinset]
        exact hsubfull hx
      have h1 : (settledIds tr).length ≤
          ((startedIds tr).toFinset.erase i).card := by
        rw [← List.toFinset_card_of_nodup hndT]
        exact Finset.card_le_card hfin
      have h2 : ((startedIds tr).toFinset.erase i).card =
          (startedIds tr).toFinset.card - 1 :=
        Finset.card_erase_of_mem (by rw [List.mem_toFinset]; exact hiS)
      have h3 : (startedIds tr).toFinset.card = (startedIds tr).length :=
        List.toFinset_card_of_nodup hndS
      have h4 : 0 < (startedIds tr).length :=
        List.length_pos.mpr (List.ne_nil_of_mem hiS)
      omega
  have hlen_iff : isLoading (runLoading [] tr) = true ↔
      (settledIds tr).length < (startedIds tr).length := by
    unfold isLoading
    rw [decide_eq_true_eq]
    omega
  refine ⟨hlen_iff.trans key, ?_, hcount⟩
  intro hall
  cases hl : isLoading (runLoading [] tr) with
  | false => rfl
  | true =>
    obtain ⟨i, hiS, hiT⟩ := (hlen_iff.trans key).mp hl
    exact absurd (hall i hiS) hiT

theorem withLoading_stack_balance_witness :
    isLoading (runLoading [] (trW.take 2)) = true ∧
    isLoading (runLoading [] trW) = false ∧
    (runLoading [] trW).length + (settledIds trW).length =
      (startedIds trW).length := by
  have hwf : WFTrace trW := by
    refine ⟨by decide, by decide, ?_⟩
    intro n
    rcases n with _ | _ | _ | _ | n
    · decide
    · decide
    · decide
    · decide
    · rw [List.take_of_length_le (by simp [trW])]
      decide
  have hwf2 : WFTrace (trW.take 2) := by
    refine ⟨by decide, by decide, ?_⟩
    intro n
    rcases n with _ | _ | _ | n
    · decide
    · decide
    · decide
    · rw [List.take_of_length_le (by simp [trW])]
      decide
  obtain ⟨hiff, hall, hcnt⟩ := withLoading_stack_balance trW hwf
  obtain ⟨hiff2, -, -⟩ := withLoading_stack_balance (trW.take 2) hwf2
  refine ⟨?_, ?_, hcnt⟩
  · exact hiff2.mpr ⟨0, by decide, by decide⟩
  · exact hall (by decide)

end YouYunBei
